import Mathlib

/-!
# Verification of the RINEX observation decoder (`pkg/rinex/obs.go`)

This file gives a shallow embedding, in Lean 4, of the decoding,
synchronization, diff and statistics engine of `src/pkg/rinex/obs.go`,
together with theorems settling the frozen claims about it.

Modelling conventions:

* Go strings are modelled as `List Char` (RINEX data is ASCII).
* Go `float64` values are modelled as `ℚ`; `strconv.ParseFloat` is modelled
  as a plain-decimal parser (sign, digits, at most one dot), which covers
  the entire value domain of the fixed-column RINEX format; exponent, hex
  and infinity forms never occur in these files and are omitted.
* Go slice expressions `s[a:b]` panic when the bounds exceed `len(s)`.
  This is modelled explicitly: `goSlice` returns `none` exactly when the
  Go expression would panic, and the decoder outcome type has a `panic`
  constructor that propagates it.
* `time.Time` values produced by `time.Parse` are modelled as a rational
  number via a strictly monotone (hence injective, given the range checks
  performed by parsing) encoding of the calendar fields, so `Time.Equal`
  becomes `=` and `Time.After` becomes `>` on `ℚ`.
* Go maps used by the code (`ObsTypes`, `Obss`) are modelled as
  association lists updated in place; the spec itself notes that the
  source relies on no particular map iteration order.
-/

/-! ## Go string primitives -/

/-- The ASCII whitespace characters recognised by Go's `unicode.IsSpace`
(the non-ASCII ones cannot occur in RINEX data). -/
def isGoSpace (c : Char) : Bool :=
  c = ' ' || c = '\t' || c = '\n' || c = '\x0b' || c = '\x0c' || c = '\r'

/-- Model of Go `strings.TrimSpace`. -/
def goTrim (l : List Char) : List Char :=
  ((l.dropWhile isGoSpace).reverse.dropWhile isGoSpace).reverse

/-- Model of Go `strings.Fields`: split on whitespace, dropping empty fields. -/
def goFields (l : List Char) : List (List Char) :=
  (List.splitOnP isGoSpace l).filter (fun s => !s.isEmpty)

/-- The sublist of `l` from position `a` (inclusive) to `b` (exclusive):
the value of the Go slice `l[a:b]` when it is in bounds. -/
def seg (l : List Char) (a b : ℕ) : List Char :=
  (l.take b).drop a

/-- Model of the Go slice expression `l[a:b]`: `none` exactly when Go
panics (slice bounds out of range). -/
def goSlice (l : List Char) (a b : ℕ) : Option (List Char) :=
  if a ≤ b ∧ b ≤ l.length then some (seg l a b) else none

/-- Numeric value of a digit string. -/
def digitsToNat (l : List Char) : ℕ :=
  l.foldl (fun a c => a * 10 + (c.toNat - 48)) 0

/-- Split a leading sign off a numeral, as Go's `strconv` functions do. -/
def signSplit (l : List Char) : ℤ × List Char :=
  match l with
  | '+' :: r => (1, r)
  | '-' :: r => (-1, r)
  | r => (1, r)

/-- Model of Go `strconv.Atoi`: optional sign followed by at least one
digit, nothing else.  (Overflow is not modelled; the decoder only applies
it to fields of at most three characters.) -/
def goAtoi (l : List Char) : Option ℤ :=
  let p := signSplit l
  if !p.2.isEmpty && p.2.all Char.isDigit then some (p.1 * digitsToNat p.2) else none

/-- Model of Go `strconv.ParseFloat` on the plain decimal forms that occur
in RINEX files: optional sign, digits with at most one decimal point and
at least one digit. -/
def parseGoFloat (l : List Char) : Option ℚ :=
  let p := signSplit l
  match p.2.splitOnP (· == '.') with
  | [ip] =>
    if !ip.isEmpty && ip.all Char.isDigit then some ((p.1 : ℚ) * digitsToNat ip) else none
  | [ip, fp] =>
    if !(ip ++ fp).isEmpty && (ip ++ fp).all Char.isDigit then
      some ((p.1 : ℚ) * ((digitsToNat ip : ℚ) + (digitsToNat fp : ℚ) / (10 : ℚ) ^ fp.length))
    else none
  | _ => none

/-- Model of `parseFlag` (obs.go): a single blank is 0, anything else is
parsed with `strconv.Atoi`. -/
def parseFlag (l : List Char) : Option ℤ :=
  if l = [' '] then some 0 else goAtoi l

/-- Truncation toward zero, the rounding used by `big.Float.Int` in
`getDecimal` (obs.go).  For the `float64` inputs that occur there the
`big.Float` computation is exact, so `ℚ` truncation models it faithfully. -/
def goTrunc (q : ℚ) : ℤ :=
  if q < 0 then ⌈q⌉ else ⌊q⌋

/-- Model of `getDecimal` (obs.go): the decimal part `f - trunc f` of a
float, sign preserved. -/
def getDecimal (q : ℚ) : ℚ :=
  q - goTrunc q

/-! ## Satellite systems -/

/-- The satellite systems of the `gnss` package (spec §2, §3). -/
inductive GnssSys where
  | GPS | GLONASS | Galileo | QZSS | BeiDou | IRNSS | SBAS | Mixed
deriving DecidableEq, Repr

/-- Modelled from the spec: the package-level lookup table `sysPerAbbr`
(one-character code to system, §2/§4.1) lives in the `gnss`/`rinex`
package outside `src/`; the spec fixes G/R/E/J/C/I/S plus `M` for Mixed. -/
def sysPerAbbr (s : List Char) : Option GnssSys :=
  if s = ['G'] then some .GPS
  else if s = ['R'] then some .GLONASS
  else if s = ['E'] then some .Galileo
  else if s = ['J'] then some .QZSS
  else if s = ['C'] then some .BeiDou
  else if s = ['I'] then some .IRNSS
  else if s = ['S'] then some .SBAS
  else if s = ['M'] then some .Mixed
  else none

/-! ## Timestamps -/

/-- Modelled from the spec: `time.Parse(epochTimeFormat, ·)` — the format
constant `epochTimeFormat` is defined outside `src/`; per spec §4.2/§4.3 it
is the fixed timestamp text `year month day hour minute seconds.fraction`.
Parsing enforces the calendar ranges that `time.Parse` checks and returns
a strictly monotone rational encoding of the instant, so that `Time.Equal`
is `=` and `Time.After` is `>`.  (Go additionally rejects impossible
day-of-month combinations such as Feb 31; no claim depends on that.) -/
def parseEpochTime (l : List Char) : Option ℚ :=
  match goFields l with
  | [ys, mos, ds, hs, mis, secs] =>
    match goAtoi ys, goAtoi mos, goAtoi ds, goAtoi hs, goAtoi mis, parseGoFloat secs with
    | some y, some mo, some d, some h, some mi, some sec =>
      if 1 ≤ mo ∧ mo ≤ 12 ∧ 1 ≤ d ∧ d ≤ 31 ∧ 0 ≤ h ∧ h ≤ 23 ∧ 0 ≤ mi ∧ mi ≤ 59
          ∧ 0 ≤ sec ∧ sec < 60 then
        some ((((((((y * 12 + (mo - 1)) * 31 + (d - 1)) * 24 + h) * 60 + mi) * 60 : ℤ) : ℚ)) + sec)
      else none
    | _, _, _, _, _, _ => none
  | _ => none

/-! ## Data model (obs.go types) -/

/-- `Coord` (obs.go): a XYZ coordinate. -/
structure Coord where
  X : ℚ
  Y : ℚ
  Z : ℚ
deriving DecidableEq, Repr

/-- `CoordNEU` (obs.go): North, East, Up coordinate or eccentricity. -/
structure CoordNEU where
  N : ℚ
  E : ℚ
  Up : ℚ
deriving DecidableEq, Repr

/-- `Obs` (obs.go): a single RINEX observation. -/
structure Obs where
  Val : ℚ
  LLI : ℤ
  SNR : ℤ
deriving DecidableEq, Repr

/-- `PRN` (obs.go): a GNSS satellite identity. -/
structure PRN where
  Sys : GnssSys
  Num : ℤ
deriving DecidableEq, Repr

/-- `SatObs` (obs.go): all observations of one satellite in one epoch.
The Go `map[string]Obs` is modelled as an association list in insertion
order (the header's declared type order). -/
structure SatObs where
  Prn : PRN
  Obss : List (List Char × Obs)
deriving DecidableEq, Repr

/-- `Epoch` (obs.go): one RINEX data epoch.  `NumSat` is a Go `uint8`,
hence the stored value is the parsed count reduced mod 256. -/
structure Epoch where
  Time : ℚ
  Flag : ℤ
  NumSat : ℕ
  ObsList : List SatObs
deriving DecidableEq, Repr

/-- The `map[gnss.System][]string` of observation types, as an
association list. -/
abbrev SysMap := List (GnssSys × List (List Char))

/-- Go map read `m[sys]` with the zero value `nil` for a missing key. -/
def sysGet (m : SysMap) (s : GnssSys) : List (List Char) :=
  match m.find? (fun p => decide (p.1 = s)) with
  | some p => p.2
  | none => []

/-- Go map write `m[sys] = v`. -/
def sysSet (m : SysMap) (s : GnssSys) (v : List (List Char)) : SysMap :=
  if m.any (fun p => decide (p.1 = s)) then
    m.map (fun p => if p.1 = s then (s, v) else p)
  else m ++ [(s, v)]

/-- The error conditions raised by the decoder (obs.go builds `fmt.Errorf`
values; only their identity matters here).  `eof` stands for `io.EOF`,
which `setErr` treats as overwritable. -/
inductive DecErr where
  | eof
  | headerTooLong
  | versionParse
  | invalidSys
  | approxPos
  | antennaDelta
  | timeParse
  | leapParse
  | nsatParse
  | epochTimeParse
  | epochFlagParse
  | numSatParse
  | invalidSatSys
  | satNumParse
  | prnRange
  | obsOutOfRange
  | obsParse
  | lliParse
  | snrParse
deriving DecidableEq, Repr

/-- `ObsHeader` (obs.go).  `SatSystem` is `none` until the
`RINEX VERSION / TYPE` line sets it (the Go zero value of `gnss.System`
is outside `src/`). -/
structure ObsHeader where
  RINEXVersion : ℚ
  RINEXType : List Char
  SatSystem : Option GnssSys
  Pgm : List Char
  RunBy : List Char
  Date : List Char
  Comments : List (List Char)
  MarkerName : List Char
  MarkerNumber : List Char
  MarkerType : List Char
  Observer : List Char
  Agency : List Char
  ReceiverNumber : List Char
  ReceiverType : List Char
  ReceiverVersion : List Char
  AntennaNumber : List Char
  AntennaType : List Char
  Position : Coord
  AntennaDelta : CoordNEU
  ObsTypes : SysMap
  SignalStrengthUnit : List Char
  Interval : ℚ
  TimeOfFirstObs : ℚ
  TimeOfLastObs : ℚ
  LeapSeconds : ℤ
  NSatellites : ℤ
  labels : List (List Char)
deriving DecidableEq, Repr

/-- The zero `ObsHeader` that `readHeader` starts from (`hdr.ObsTypes`
initialised to the empty map). -/
def emptyHeader : ObsHeader :=
  { RINEXVersion := 0, RINEXType := [], SatSystem := none
    Pgm := [], RunBy := [], Date := [], Comments := []
    MarkerName := [], MarkerNumber := [], MarkerType := []
    Observer := [], Agency := []
    ReceiverNumber := [], ReceiverType := [], ReceiverVersion := []
    AntennaNumber := [], AntennaType := []
    Position := ⟨0, 0, 0⟩, AntennaDelta := ⟨0, 0, 0⟩
    ObsTypes := [], SignalStrengthUnit := [], Interval := 0
    TimeOfFirstObs := 0, TimeOfLastObs := 0
    LeapSeconds := 0, NSatellites := 0, labels := [] }

/-! ## Header parsing (`readHeader`, obs.go lines 205-351) -/

abbrev Line := List Char

/-- The `ANTENNA: DELTA H/E/N` case of `readHeader`: three
whitespace-delimited tokens or a fatal error; each token that parses as a
float is stored, the first into `Up`, the second into `E`, the third into
`N` (a token that fails to parse leaves the field unchanged). -/
def applyAntennaDelta (hdr : ObsHeader) (val : List Char) : Except DecErr ObsHeader :=
  match goFields val with
  | [a, b, c] =>
    .ok { hdr with AntennaDelta :=
      { Up := (parseGoFloat a).getD hdr.AntennaDelta.Up
        E := (parseGoFloat b).getD hdr.AntennaDelta.E
        N := (parseGoFloat c).getD hdr.AntennaDelta.N } }
  | _ => .error .antennaDelta

/-- The `APPROX POSITION XYZ` case of `readHeader`. -/
def applyApproxPos (hdr : ObsHeader) (val : List Char) : Except DecErr ObsHeader :=
  match goFields val with
  | [a, b, c] =>
    .ok { hdr with Position :=
      { X := (parseGoFloat a).getD hdr.Position.X
        Y := (parseGoFloat b).getD hdr.Position.Y
        Z := (parseGoFloat c).getD hdr.Position.Z } }
  | _ => .error .approxPos

/-- The `SYS / # / OBS TYPES` case of `readHeader`: a blank system column
continues the system remembered in `rem`; a non-blank count field at
`[3:6)` replaces the type list, a blank one appends to it. -/
def applySysObsTypes (m : SysMap) (rem : List Char) (val : List Char) :
    Except DecErr (SysMap × List Char) :=
  let sysStr := val.take 1
  let sysRem := if sysStr = [' '] then (rem, rem) else (sysStr, sysStr)
  match sysPerAbbr sysRem.1 with
  | none => .error .invalidSys
  | some sys =>
    if goTrim (seg val 3 6) ≠ [] then
      .ok (sysSet m sys (goFields (val.drop 7)), sysRem.2)
    else
      .ok (sysSet m sys (sysGet m sys ++ goFields (val.drop 7)), sysRem.2)

/-- Outcome of processing one header line of at least 60 characters. -/
inductive LineOut where
  | done (hdr : ObsHeader)
  | next (hdr : ObsHeader) (rem : List Char)
  | fail (hdr : ObsHeader) (e : DecErr)
deriving DecidableEq, Repr

/-- One iteration of the `readHeader` loop body for a line of length at
least 60: split into value `[:60)` and label (trimmed `[60:)`), record the
label, then dispatch on it.  Unrecognised labels are non-fatal. -/
def processHeaderLine (hdr0 : ObsHeader) (rem : List Char) (l : Line) : LineOut :=
  let val := l.take 60
  let key := goTrim (l.drop 60)
  let hdr := { hdr0 with labels := hdr0.labels ++ [key] }
  if key = "RINEX VERSION / TYPE".toList then
    match parseGoFloat (goTrim (val.take 20)) with
    | none => .fail hdr .versionParse
    | some v =>
      let hdr := { hdr with RINEXVersion := v, RINEXType := goTrim (seg val 20 21) }
      match sysPerAbbr (goTrim (seg val 40 41)) with
      | some sys => .next { hdr with SatSystem := some sys } rem
      | none => .fail hdr .invalidSys
  else if key = "PGM / RUN BY / DATE".toList then
    .next { hdr with Pgm := goTrim (val.take 20), RunBy := goTrim (seg val 20 40)
                     Date := goTrim (val.drop 40) } rem
  else if key = "COMMENT".toList then
    .next { hdr with Comments := hdr.Comments ++ [goTrim val] } rem
  else if key = "MARKER NAME".toList then
    .next { hdr with MarkerName := goTrim val } rem
  else if key = "MARKER NUMBER".toList then
    .next { hdr with MarkerNumber := goTrim (val.take 20) } rem
  else if key = "MARKER TYPE".toList then
    .next { hdr with MarkerType := goTrim (seg val 20 40) } rem
  else if key = "OBSERVER / AGENCY".toList then
    .next { hdr with Observer := goTrim (val.take 20), Agency := goTrim (val.drop 20) } rem
  else if key = "REC # / TYPE / VERS".toList then
    .next { hdr with ReceiverNumber := goTrim (val.take 20)
                     ReceiverType := goTrim (seg val 20 40)
                     ReceiverVersion := goTrim (val.drop 40) } rem
  else if key = "ANT # / TYPE".toList then
    .next { hdr with AntennaNumber := goTrim (val.take 20)
                     AntennaType := goTrim (seg val 20 40) } rem
  else if key = "APPROX POSITION XYZ".toList then
    match applyApproxPos hdr val with
    | .ok h => .next h rem
    | .error e => .fail hdr e
  else if key = "ANTENNA: DELTA H/E/N".toList then
    match applyAntennaDelta hdr val with
    | .ok h => .next h rem
    | .error e => .fail hdr e
  else if key = "SYS / # / OBS TYPES".toList then
    match applySysObsTypes hdr.ObsTypes rem val with
    | .ok p => .next { hdr with ObsTypes := p.1 } p.2
    | .error e => .fail hdr e
  else if key = "SIGNAL STRENGTH UNIT".toList then
    .next { hdr with SignalStrengthUnit := goTrim (val.take 20) } rem
  else if key = "INTERVAL".toList then
    match parseGoFloat (goTrim val) with
    | some f => .next { hdr with Interval := f } rem
    | none => .next hdr rem
  else if key = "TIME OF FIRST OBS".toList then
    match parseEpochTime (goTrim (val.take 43)) with
    | some t => .next { hdr with TimeOfFirstObs := t } rem
    | none => .fail hdr .timeParse
  else if key = "TIME OF LAST OBS".toList then
    match parseEpochTime (goTrim (val.take 43)) with
    | some t => .next { hdr with TimeOfLastObs := t } rem
    | none => .fail hdr .timeParse
  else if key = "LEAP SECONDS".toList then
    match goAtoi (goTrim (val.take 6)) with
    | some i => .next { hdr with LeapSeconds := i } rem
    | none => .fail hdr .leapParse
  else if key = "# OF SATELLITES".toList then
    match goAtoi (goTrim (val.take 6)) with
    | some i => .next { hdr with NSatellites := i } rem
    | none => .fail hdr .nsatParse
  else if key = "END OF HEADER".toList then
    .done hdr
  else
    .next hdr rem

/-- The loop state of `readHeader`: the header built so far, the
`rememberMe` continuation system and the current line number. -/
structure HdrState where
  hdr : ObsHeader
  rem : List Char
  lineNum : ℕ
deriving DecidableEq, Repr

/-- Result of running the `readHeader` loop on a line stream: either the
scanner was exhausted while still looping (`running`, the clean-EOF exit),
or the loop stopped by `break`/`return` (`stopped`, carrying the error, if
any, and the unconsumed lines). -/
inductive HdrOut where
  | running (s : HdrState)
  | stopped (hdr : ObsHeader) (err : Option DecErr) (rest : List Line)
deriving DecidableEq, Repr

/-- The `readHeader` scan loop: count the line, abort with the
header-too-long error once the count exceeds 800, skip lines shorter than
60 characters, otherwise process the line. -/
def hdrRun (s : HdrState) : List Line → HdrOut
  | [] => .running s
  | l :: rest =>
    let n := s.lineNum + 1
    if 800 < n then .stopped s.hdr (some .headerTooLong) rest
    else if l.length < 60 then hdrRun ⟨s.hdr, s.rem, n⟩ rest
    else match processHeaderLine s.hdr s.rem l with
      | .done h => .stopped h none rest
      | .fail h e => .stopped h (some e) rest
      | .next h rm => hdrRun ⟨h, rm, n⟩ rest

/-- What `readHeader` hands back to `NewObsDecoder`: the header, the
error (if any) and the lines left in the stream. -/
structure HeaderRes where
  hdr : ObsHeader
  err : Option DecErr
  rest : List Line
deriving DecidableEq, Repr

/-- `readHeader` (obs.go): run the scan loop from the zero header; clean
scanner exhaustion yields no error (`dec.sc.Err()` is `nil` at EOF). -/
def readHeaderM (lines : List Line) : HeaderRes :=
  match hdrRun ⟨emptyHeader, [], 0⟩ lines with
  | .running s => ⟨s.hdr, none, []⟩
  | .stopped h e rest => ⟨h, e, rest⟩

/-- The mutable state of an `ObsDecoder`. -/
structure DecSt where
  Header : ObsHeader
  err : Option DecErr
  lines : List Line
  epo : Option Epoch
deriving DecidableEq, Repr

/-- `NewObsDecoder` (obs.go): read the header eagerly and return the
decoder together with the header-reading error. -/
def newObsDecoder (lines : List Line) : DecSt × Option DecErr :=
  let r := readHeaderM lines
  (⟨r.hdr, r.err, r.rest, none⟩, r.err)

/-- `setErr` (obs.go): record the first error; `nil` and `io.EOF` may be
overwritten, any other stored error wins. -/
def setErrF (cur : Option DecErr) (e : DecErr) : Option DecErr :=
  if cur = none ∨ cur = some .eof then some e else cur

/-! ## Epoch decoding (`NextEpoch`, obs.go lines 356-488) -/

/-- The inner loop of `NextEpoch` over the header's ordered observation
types for the satellite's system: consume a 14-column value (blank means
0, parse failure is fatal), then, if the line is long enough, a 1-column
LLI flag and a 1-column SNR flag; running out of columns after the value
records the partial observation and stops (`break`). -/
def obsWalk (l : Line) : ℕ → List (List Char) → Except DecErr (List (List Char × Obs))
  | _, [] => .ok []
  | col, typ :: typs =>
    if l.length < col + 14 then .error .obsOutOfRange
    else
      let obsStr := goTrim (seg l col (col + 14))
      match (if obsStr = [] then some 0 else parseGoFloat obsStr) with
      | none => .error .obsParse
      | some v =>
        if l.length < col + 14 + 1 then .ok [(typ, ⟨v, 0, 0⟩)]
        else match parseFlag (seg l (col + 14) (col + 15)) with
          | none => .error .lliParse
          | some lli =>
            if l.length < col + 15 + 1 then .ok [(typ, ⟨v, lli, 0⟩)]
            else match parseFlag (seg l (col + 15) (col + 16)) with
              | none => .error .snrParse
              | some snr =>
                (obsWalk l (col + 16) typs).map (fun m => (typ, ⟨v, lli, snr⟩) :: m)

/-- Outcome of the satellite-line loop of `NextEpoch`: a Go panic, a fatal
parse error (with the satellite records accumulated so far, which the Go
code has already appended to `dec.epo.ObsList`), or success. -/
inductive SatsOut where
  | panic
  | fatal (e : DecErr) (acc : List SatObs) (rest : List Line)
  | ok (obs : List SatObs) (rest : List Line)
deriving DecidableEq, Repr

/-- Prepend a parsed satellite record to the outcome of the remaining
iterations. -/
def SatsOut.consSat (s : SatObs) : SatsOut → SatsOut
  | .panic => .panic
  | .fatal e acc rest => .fatal e (s :: acc) rest
  | .ok obs rest => .ok (s :: obs) rest

/-- The satellite-line loop of `NextEpoch` (`for ii := 1; ii <= numSat`):
read one line per declared satellite (after scanner exhaustion `sc.Text()`
returns the empty string, whose very first slice `line[:1]` panics),
resolve the system code `[0:1)` and satellite number `[1:3)`, skip lines
blank after column 3, otherwise walk the observation types. -/
def readSats (hdr : ObsHeader) : ℕ → List Line → SatsOut
  | 0, lines => .ok [] lines
  | n + 1, lines =>
    let l := lines.headD []
    let rest := lines.tail
    match goSlice l 0 1 with
    | none => .panic
    | some s1 =>
      match sysPerAbbr s1 with
      | none => .fatal .invalidSatSys [] rest
      | some sys =>
        match goSlice l 1 3 with
        | none => .panic
        | some s2 =>
          match goAtoi s2 with
          | none => .fatal .satNumParse [] rest
          | some snum =>
            if snum < 1 ∨ 60 < snum then .fatal .prnRange [] rest
            else if goTrim (l.drop 3) = [] then readSats hdr n rest
            else match obsWalk l 3 (sysGet hdr.ObsTypes sys) with
              | .error e => .fatal e [] rest
              | .ok obsPerTyp =>
                SatsOut.consSat ⟨⟨sys, snum⟩, obsPerTyp⟩ (readSats hdr n rest)

/-- Outcome of one `NextEpoch` call: a Go panic, or the boolean the Go
method returns together with the updated decoder state. -/
inductive NEOut where
  | panic
  | res (b : Bool) (st : DecSt)
deriving DecidableEq, Repr

/-- `NextEpoch` (obs.go): skip empty lines and lines not starting with
`"> "`; on the first epoch-marker line parse the timestamp `[2:29)`, the
epoch flag `[31:32)` and the satellite count `[32:35)` (each slice panics
on a too-short line), allocate the epoch (a negative count makes
`make([]SatObs, 0, numSat)` panic) and run the satellite-line loop.
Error paths record the error through `setErr` and return `false`.
Note that the stored error `st.err` is never consulted. -/
def nextEpochGo (hdr : ObsHeader) (err : Option DecErr) (epo : Option Epoch) :
    List Line → NEOut
  | [] => .res false ⟨hdr, err, [], epo⟩
  | l :: rest =>
    if l.length < 1 then nextEpochGo hdr err epo rest
    else if !(("> ".toList).isPrefixOf l) then nextEpochGo hdr err epo rest
    else
      match goSlice l 2 29 with
      | none => .panic
      | some ts =>
        match parseEpochTime ts with
        | none => .res false ⟨hdr, setErrF err .epochTimeParse, rest, epo⟩
        | some t =>
          match goSlice l 31 32 with
          | none => .panic
          | some fs =>
            match goAtoi fs with
            | none => .res false ⟨hdr, setErrF err .epochFlagParse, rest, epo⟩
            | some flag =>
              match goSlice l 32 35 with
              | none => .panic
              | some ns =>
                match goAtoi (goTrim ns) with
                | none => .res false ⟨hdr, setErrF err .numSatParse, rest, epo⟩
                | some numSat =>
                  if numSat < 0 then .panic
                  else
                    match readSats hdr numSat.toNat rest with
                    | .panic => .panic
                    | .fatal e acc rrest =>
                      .res false ⟨hdr, setErrF err e, rrest,
                                  some ⟨t, flag, numSat.toNat % 256, acc⟩⟩
                    | .ok obs rrest =>
                      .res true ⟨hdr, err, rrest, some ⟨t, flag, numSat.toNat % 256, obs⟩⟩

/-- `NextEpoch` as a transition on the decoder state. -/
def nextEpochM (st : DecSt) : NEOut :=
  nextEpochGo st.Header st.err st.epo st.lines

/-- The decoder state after one `NextEpoch` call (a panic leaves no
well-defined state; it is mapped to the input state, which no theorem
relies on). -/
def stepDec (st : DecSt) : DecSt :=
  match nextEpochM st with
  | .res _ s => s
  | .panic => st

/-- Whether a `NextEpoch` call returned `true`. -/
def NEOut.succ : NEOut → Bool
  | .res b _ => b
  | .panic => false

/-- The epoch held by the decoder after a `NextEpoch` call. -/
def NEOut.epoch : NEOut → Option Epoch
  | .res _ s => s.epo
  | .panic => none

/-! ## Stream synchronization (`sync`, obs.go lines 508-540)

`sync` drives two decoders.  Only `NextEpoch`/`Epoch` of each decoder are
used, so the two streams are modelled by the epoch sequences they yield.
The loop state is made explicit: `outer e2` is the head of the outer
`for dec.NextEpoch()` loop with `epoF2 = e2` (`none` for the Go `nil`),
and `inner x e2` is the head of the inner `for dec2.NextEpoch()` loop with
`epoF1 = x`. -/

inductive SyncMode where
  | outer (e2 : Option Epoch)
  | inner (x : Epoch) (e2 : Option Epoch)

/-- Rank used in the termination measure of the `sync` loop. -/
def syncModeRank : SyncMode → ℕ
  | .outer _ => 0
  | .inner _ _ => 1

/-- One call of `sync` (obs.go): returns the emitted pair and the two
remaining streams, or `none` when the primary stream is exhausted without
a match.  `Time.Equal` is `=` and `Time.After` is `>` on the encoded
timestamps. -/
def syncGo : SyncMode → List Epoch → List Epoch →
    Option ((Epoch × Epoch) × List Epoch × List Epoch)
  | .outer _, [], _ => none
  | .outer e2, x :: xs, ys =>
    match e2 with
    | some y =>
      if x.Time = y.Time then some ((x, y), xs, ys)
      else if y.Time > x.Time then syncGo (.outer (some y)) xs ys
      else syncGo (.inner x (some y)) xs ys
    | none => syncGo (.inner x none) xs ys
  | .inner x e2, xs, [] => syncGo (.outer e2) xs []
  | .inner x _, xs, y :: ys =>
    if y.Time = x.Time then some ((x, y), xs, ys)
    else if y.Time > x.Time then syncGo (.outer (some y)) xs ys
    else syncGo (.inner x (some y)) xs ys
  termination_by m xs ys => 2 * (xs.length + ys.length) + syncModeRank m
  decreasing_by all_goals simp [syncModeRank] <;> omega

/-- A successful `sync` consumes at least one epoch overall. -/
theorem syncGo_shrink (m : SyncMode) (xs ys : List Epoch) :
    ∀ p xs2 ys2, syncGo m xs ys = some (p, xs2, ys2) →
      xs2.length + ys2.length + 1 ≤ xs.length + ys.length + syncModeRank m := by
  induction m, xs, ys using syncGo.induct with
  | case1 e2 ys =>
    intro p xs2 ys2 h
    simp [syncGo] at h
  | case2 x xs ys y hxy =>
    intro p xs2 ys2 h
    simp [syncGo, hxy] at h
    obtain ⟨-, rfl, rfl⟩ := h
    simp [syncModeRank]
    omega
  | case3 x xs ys y hxy hyx ih =>
    intro p xs2 ys2 h
    simp [syncGo, hxy, hyx] at h
    have := ih p xs2 ys2 h
    simp [syncModeRank] at this ⊢
    omega
  | case4 x xs ys y hxy hyx ih =>
    intro p xs2 ys2 h
    simp [syncGo, hxy, hyx] at h
    have := ih p xs2 ys2 h
    simp [syncModeRank] at this ⊢
    omega
  | case5 x xs ys ih =>
    intro p xs2 ys2 h
    simp [syncGo] at h
    have := ih p xs2 ys2 h
    simp [syncModeRank] at this ⊢
    omega
  | case6 x e2 xs ih =>
    intro p xs2 ys2 h
    simp [syncGo] at h
    have := ih p xs2 ys2 h
    simp [syncModeRank] at this ⊢
    omega
  | case7 x e2 xs y ys hyx =>
    intro p xs2 ys2 h
    simp [syncGo, hyx] at h
    obtain ⟨-, rfl, rfl⟩ := h
    simp [syncModeRank]
  | case8 x e2 xs y ys hne hgt ih =>
    intro p xs2 ys2 h
    simp [syncGo, hne, hgt] at h
    have := ih p xs2 ys2 h
    simp [syncModeRank] at this ⊢
    omega
  | case9 x e2 xs y ys hne hgt ih =>
    intro p xs2 ys2 h
    simp [syncGo, hne, hgt] at h
    have := ih p xs2 ys2 h
    simp [syncModeRank] at this ⊢
    omega

/-- Iterating `sync` from fresh per-call locals (`epoF1`, `epoF2` are
`nil` at each entry), as `Diff` does with `for dec.sync(dec2)`: collect
every emitted pair. -/
def syncAll (xs ys : List Epoch) : List (Epoch × Epoch) :=
  match h : syncGo (.outer none) xs ys with
  | none => []
  | some (p, xs2, ys2) => p :: syncAll xs2 ys2
  termination_by xs.length + ys.length
  decreasing_by
    have := syncGo_shrink (.outer none) xs ys p xs2 ys2 h
    simp [syncModeRank] at this
    omega

/-- Specification value for `syncAll`: for each epoch of the first stream,
the first epoch of the second stream with the same timestamp, if any. -/
def intersectPairs (xs ys : List Epoch) : List (Epoch × Epoch) :=
  xs.filterMap (fun x => (ys.find? (fun y => decide (y.Time = x.Time))).map (fun y => (x, y)))

/-! ## Diff engine (`diffObs`/`getDecimal`, obs.go lines 865-957) -/

/-- The fixed comparison tolerance `deltaPhase := 0.005` of `diffObs`. -/
def deltaPhase : ℚ := 5 / 1000

/-- The hard-wired `checkSNR := false` of `diffObs`. -/
def checkSNR : Bool := false

/-- Go map read `m[k]` on a per-satellite observation map. -/
def obsGet (m : List (List Char × Obs)) (k : List Char) : Option Obs :=
  (m.find? (fun p => decide (p.1 = k))).map (fun p => p.2)

/-- The comparison performed by `diffObs` for one observation-type key
present in both satellites: observation types beginning with `L` are
compared on their decimal parts, all others on the raw values; a pair is
reported when the LLI flags differ or the compared difference exceeds
`deltaPhase`. -/
def reportCond (k : List Char) (o1 o2 : Obs) : Bool :=
  let v1 := if ("L".toList).isPrefixOf k then getDecimal o1.Val else o1.Val
  let v2 := if ("L".toList).isPrefixOf k then getDecimal o2.Val else o2.Val
  decide (o1.LLI ≠ o2.LLI) || decide (deltaPhase < |v1 - v2|)

/-- The discrepancy reports printed by `diffObs`. -/
inductive DiffReport where
  | valueDiff (k : List Char)
  | snrDiff (k : List Char)
  | missingKey (k : List Char)
deriving DecidableEq, Repr

/-- `diffObs` (obs.go): walk the first satellite's observations; a key
missing from the second is reported and skipped, otherwise the pair is
reported when `reportCond` holds (the SNR-only report is dead code since
`checkSNR` is hard-wired to `false`). -/
def diffObs (obs1 obs2 : SatObs) : List DiffReport :=
  obs1.Obss.filterMap (fun p =>
    match obsGet obs2.Obss p.1 with
    | some o2 =>
      if reportCond p.1 p.2 o2 then some (.valueDiff p.1)
      else if checkSNR && decide (p.2.SNR ≠ o2.SNR) then some (.snrDiff p.1)
      else none
    | none => some (.missingKey p.1))

/-! ## Statistics (`Stat`, obs.go lines 600-644) -/

/-- `ObsStat` (obs.go). -/
structure ObsStat where
  NumEpochs : ℕ
  Sampling : ℤ
  TimeOfFirstObs : ℚ
  TimeOfLastObs : ℚ
deriving DecidableEq, Repr

/-- Outcome of `Stat`: a Go panic, an error return, or a statistics value. -/
inductive StatOut where
  | panic
  | err (e : DecErr)
  | ok (s : ObsStat)
deriving DecidableEq, Repr


/-- The lines left over by the satellite loop (empty for a panic). -/
def SatsOut.restOf : SatsOut → List Line
  | .panic => []
  | .fatal _ _ rest => rest
  | .ok _ rest => rest

theorem consSat_restOf (s : SatObs) (r : SatsOut) :
    (SatsOut.consSat s r).restOf = r.restOf := by
  cases r <;> rfl

/-- The satellite loop never conjures lines: whatever it leaves over is at
most what it was given. -/
theorem readSats_restOf_le (hdr : ObsHeader) :
    ∀ (n : ℕ) (lines : List Line), ((readSats hdr n lines).restOf).length ≤ lines.length := by
  intro n
  induction n with
  | zero => intro lines; simp [readSats, SatsOut.restOf]
  | succ n ih =>
    intro lines
    cases lines with
    | nil => simp [readSats, goSlice, SatsOut.restOf]
    | cons l rest =>
      have htail : rest.length ≤ (l :: rest).length := by simp
      cases h1 : goSlice l 0 1 with
      | none => simp [readSats, SatsOut.restOf, h1]
      | some s1 =>
        cases h2 : sysPerAbbr s1 with
        | none => simpa [readSats, SatsOut.restOf, h1, h2] using htail
        | some sys =>
          cases h3 : goSlice l 1 3 with
          | none => simp [readSats, SatsOut.restOf, h1, h2, h3]
          | some s2 =>
            cases h4 : goAtoi s2 with
            | none => simpa [readSats, SatsOut.restOf, h1, h2, h3, h4] using htail
            | some snum =>
              by_cases h5 : snum < 1 ∨ 60 < snum
              · simpa [readSats, SatsOut.restOf, h1, h2, h3, h4, h5] using htail
              · by_cases h6 : goTrim (l.drop 3) = []
                · simpa [readSats, SatsOut.restOf, h1, h2, h3, h4, h5, h6]
                    using le_trans (ih rest) htail
                · cases h7 : obsWalk l 3 (sysGet hdr.ObsTypes sys) with
                  | error e =>
                    simpa [readSats, SatsOut.restOf, h1, h2, h3, h4, h5, h6, h7] using htail
                  | ok obsPerTyp =>
                    simp [readSats, h1, h2, h3, h4, h5, h6, h7]
                    rw [consSat_restOf]
                    exact le_trans (ih rest) (Nat.le_succ _)

/-- A successful `NextEpoch` consumes at least the epoch-marker line. -/
theorem nextEpochGo_true_lines_lt (hdr : ObsHeader) (err : Option DecErr) (epo : Option Epoch) :
    ∀ (lines : List Line) (st : DecSt),
      nextEpochGo hdr err epo lines = .res true st → st.lines.length < lines.length := by
  intro lines
  induction lines with
  | nil => intro st h; simp [nextEpochGo] at h
  | cons l rest ih =>
    intro st h
    simp only [nextEpochGo] at h
    by_cases hb1 : l.length < 1
    · rw [if_pos hb1] at h
      exact lt_trans (ih st h) (by simp)
    · rw [if_neg hb1] at h
      cases hb2 : ("> ".toList).isPrefixOf l with
      | false =>
        simp only [hb2, Bool.not_false, if_true] at h
        exact lt_trans (ih st h) (by simp)
      | true =>
        simp only [hb2, Bool.not_true, Bool.false_eq_true, if_false] at h
        cases h1 : goSlice l 2 29 with
        | none => simp [h1] at h
        | some ts =>
          simp only [h1] at h
          cases h2 : parseEpochTime ts with
          | none => simp [h2] at h
          | some t =>
            simp only [h2] at h
            cases h3 : goSlice l 31 32 with
            | none => simp [h3] at h
            | some fs =>
              simp only [h3] at h
              cases h4 : goAtoi fs with
              | none => simp [h4] at h
              | some flag =>
                simp only [h4] at h
                cases h5 : goSlice l 32 35 with
                | none => simp [h5] at h
                | some ns =>
                  simp only [h5] at h
                  cases h6 : goAtoi (goTrim ns) with
                  | none => simp [h6] at h
                  | some numSat =>
                    simp only [h6] at h
                    by_cases h7 : numSat < 0
                    · simp [if_pos h7] at h
                    · rw [if_neg h7] at h
                      cases h8 : readSats hdr numSat.toNat rest with
                      | panic => simp [h8] at h
                      | fatal e acc rrest => simp [h8] at h
                      | ok obs rrest =>
                        simp only [h8] at h
                        have hle := readSats_restOf_le hdr numSat.toNat rest
                        rw [h8] at hle
                        simp only [SatsOut.restOf] at hle
                        cases h
                        simpa using Nat.lt_succ_of_le hle

/-- The `for dec.NextEpoch()` loop of `Stat` (obs.go): count epochs,
remember the first epoch's time when the count reaches one and the most
recent epoch as `epoPrev`; when the loop ends, a decoder error (other
than the EOF that `Err()` masks) is returned, and otherwise
`stat.TimeOfLastObs = epoPrev.Time` dereferences `epoPrev`, which is `nil`
when no epoch was decoded. -/
def statLoop (st : DecSt) (numOfEpochs : ℕ) (firstObs : ℚ) (epoPrev : Option Epoch) :
    StatOut :=
  match h : nextEpochM st with
  | .panic => .panic
  | .res true st2 =>
    match st2.epo with
    | none => .panic
    | some epo =>
      statLoop st2 (numOfEpochs + 1)
        (if numOfEpochs + 1 = 1 then epo.Time else firstObs) (some epo)
  | .res false st2 =>
    match st2.err with
    | some e =>
      if e = .eof then
        match epoPrev with
        | none => .panic
        | some ep => .ok ⟨numOfEpochs, 0, firstObs, ep.Time⟩
      else .err e
    | none =>
      match epoPrev with
      | none => .panic
      | some ep => .ok ⟨numOfEpochs, 0, firstObs, ep.Time⟩
  termination_by st.lines.length
  decreasing_by exact nextEpochGo_true_lines_lt st.Header st.err st.epo st.lines st2 h

/-- `Stat` (obs.go): build the decoder (propagating a header error), run
the epoch loop, and assemble the statistics.  The sampling-rate inference
is a placeholder in the source (`intervals` is collected but unused) and
is modelled as the constant 0 it leaves behind. -/
def statModel (lines : List Line) : StatOut :=
  let r := readHeaderM lines
  match r.err with
  | some e => .err e
  | none => statLoop ⟨r.hdr, none, r.rest, none⟩ 0 0 none

/-! ## Remaining definitions: the SYS-block fold and concrete inputs -/

/-- The restriction of the `readHeader` loop to a run of consecutive
`SYS / # / OBS TYPES` lines: the loop state it threads is exactly the pair
(ObsTypes map, `rememberMe`), updated by `applySysObsTypes` per line. -/
def runSysLines (st : SysMap × List Char) : List Line → Except DecErr (SysMap × List Char)
  | [] => .ok st
  | l :: rest =>
    match applySysObsTypes st.1 st.2 l with
    | .error e => .error e
    | .ok st2 => runSysLines st2 rest

/-- Pad a string with blanks to a given width (input construction only). -/
def padTo (s : String) (n : ℕ) : List Char :=
  s.toList ++ List.replicate (n - s.length) ' '

/-- A header line carrying only the `END OF HEADER` terminator. -/
def endHdrLine : Line := padTo "" 60 ++ "END OF HEADER".toList

/-- A header whose only observation type for GPS is `C1C`. -/
def hdrG : ObsHeader := { emptyHeader with ObsTypes := [(.GPS, ["C1C".toList])] }

/-- Epoch marker declaring two satellites. -/
def marker2 : Line := "> 2018 11 06 19 00  0.0000000  0  2".toList

/-- Epoch marker declaring one satellite. -/
def marker1 : Line := "> 2018 11 06 19 00  0.0000000  0  1".toList

/-- Epoch marker declaring zero satellites. -/
def marker0 : Line := "> 2018 11 06 19 30  0.0000000  0  0".toList

/-- A GPS satellite line with one 14-column `C1C` value and nothing after. -/
def satG01 : Line := "G01  20000000.000".toList

/-- A satellite line that is entirely blank after column 3. -/
def satG02blank : Line := "G02".toList

/-- A satellite line with an unknown system code (fatal). -/
def badSat : Line := "X01".toList

/-- The satellite records parsed from `satG01` alone. -/
def c1obs : List SatObs := [⟨⟨.GPS, 1⟩, [("C1C".toList, ⟨20000000, 0, 0⟩)]⟩]

/-- Decoder state for the blank-satellite-line input. -/
def c1st : DecSt := ⟨hdrG, none, [marker2, satG01, satG02blank], none⟩

/-- Decoder state whose first epoch has a fatal satellite line and whose
stream still holds a further valid epoch. -/
def c3st : DecSt := ⟨hdrG, none, [marker1, badSat, marker0], none⟩

/-! ## Helper lemmas -/

/-- Exact accounting of the satellite loop: on success it consumes exactly
`n` lines, and every consumed line is either blank after column 3 (and
skipped) or contributes one `SatObs`. -/
theorem readSats_ok_spec (hdr : ObsHeader) :
    ∀ (n : ℕ) (lines : List Line) (obs : List SatObs) (rest : List Line),
      readSats hdr n lines = .ok obs rest →
        obs.length + (lines.take n).countP (fun l => decide (goTrim (l.drop 3) = [])) = n ∧
        rest = lines.drop n := by
  intro n
  induction n with
  | zero =>
    intro lines obs rest h
    simp only [readSats, SatsOut.ok.injEq] at h
    obtain ⟨rfl, rfl⟩ := h
    simp
  | succ n ih =>
    intro lines obs rest h
    cases lines with
    | nil => simp [readSats, goSlice, seg] at h
    | cons l rest0 =>
      simp only [readSats, List.headD, List.head?, Option.getD, List.tail_cons] at h
      cases h1 : goSlice l 0 1 with
      | none => simp [h1] at h
      | some s1 =>
        simp only [h1] at h
        cases h2 : sysPerAbbr s1 with
        | none => simp [h2] at h
        | some sys =>
          simp only [h2] at h
          cases h3 : goSlice l 1 3 with
          | none => simp [h3] at h
          | some s2 =>
            simp only [h3] at h
            cases h4 : goAtoi s2 with
            | none => simp [h4] at h
            | some snum =>
              simp only [h4] at h
              by_cases h5 : snum < 1 ∨ 60 < snum
              · simp [if_pos h5] at h
              · rw [if_neg h5] at h
                by_cases h6 : goTrim (l.drop 3) = []
                · rw [if_pos h6] at h
                  obtain ⟨hcnt, hrest⟩ := ih rest0 obs rest h
                  refine ⟨?_, by simpa using hrest⟩
                  simp only [List.take_succ_cons, List.countP_cons, h6]
                  simp
                  omega
                · rw [if_neg h6] at h
                  cases h7 : obsWalk l 3 (sysGet hdr.ObsTypes sys) with
                  | error e => simp [h7] at h
                  | ok obsPerTyp =>
                    simp only [h7] at h
                    cases h8 : readSats hdr n rest0 with
                    | panic => rw [h8] at h; simp [SatsOut.consSat] at h
                    | fatal e acc r2 => rw [h8] at h; simp [SatsOut.consSat] at h
                    | ok obs0 rest1 =>
                      rw [h8] at h
                      simp only [SatsOut.consSat, SatsOut.ok.injEq] at h
                      obtain ⟨rfl, rfl⟩ := h
                      obtain ⟨hcnt, hrest⟩ := ih rest0 obs0 rest1 h8
                      refine ⟨?_, by simpa using hrest⟩
                      simp only [List.take_succ_cons, List.countP_cons, h6]
                      simp
                      omega

/-! ## Claim theorems -/

-- The kernel reduces the four sealed core `Rat` operations fine; opening
-- them lets `decide`/`rfl` evaluate the model on concrete inputs.
unseal Rat.add Rat.sub Rat.mul Rat.inv

/-- C1 (counterexample): decoding the epoch `marker2` with a normal first
satellite line and a second satellite line that is blank after column 3
succeeds, but the epoch stores `NumSat = 2` while its `ObsList` has only
one record — the blank line is skipped without appending a `SatObs`, so
the claimed equality fails exactly in the blank-line case. -/
theorem C1_blank_sat_line_counterexample :
    (nextEpochM c1st).succ = true ∧
    ((nextEpochM c1st).epoch).map (fun e => (e.NumSat, e.ObsList.length)) = some (2, 1) :=
  ⟨by decide, by decide⟩

/-- C1 (amended): for every successfully decoded epoch, the parsed
satellite count equals the length of the `ObsList` plus the number of
consumed satellite lines that are blank after column 3 (which are skipped
and contribute no record); the count equals the `ObsList` length exactly
when no consumed satellite line is blank.  `NumSat` stores the parsed
count mod 256 and `ObsList` is the list built by the satellite loop. -/
theorem C1_numsat_counts_blank_lines (hdr : ObsHeader) (n : ℕ) (lines : List Line)
    (obs : List SatObs) (rest : List Line) (h : readSats hdr n lines = .ok obs rest) :
    obs.length + (lines.take n).countP (fun l => decide (goTrim (l.drop 3) = [])) = n ∧
    rest = lines.drop n :=
  readSats_ok_spec hdr n lines obs rest h

/-- C1 (witness): the amended accounting at the concrete two-satellite
input with one blank line: one record plus one blank line gives count 2. -/
theorem C1_numsat_counts_blank_lines_witness :
    readSats hdrG 2 [satG01, satG02blank] = .ok c1obs [] ∧
    c1obs.length +
      ([satG01, satG02blank].take 2).countP (fun l => decide (goTrim (l.drop 3) = [])) = 2 :=
  ⟨by decide, (C1_numsat_counts_blank_lines hdrG 2 [satG01, satG02blank] c1obs [] (by decide)).1⟩

/-- C2 (code_bug evaluation): on an empty stream — no header at all — and
on a stream whose header is never terminated, `readHeader` returns no
error, so `NewObsDecoder` returns a `nil` error instead of the
`ErrNoHeader` promised by its own documentation. -/
theorem C2_missing_header_yields_no_error :
    (readHeaderM []).err = none ∧ (readHeaderM ["junk".toList]).err = none :=
  ⟨by decide, by decide⟩

/-- C3 (counterexample): on a stream whose first epoch contains a fatal
satellite line (unknown system `X`), the failing `NextEpoch` call returns
`false` and records the error, but the very next `NextEpoch` call on the
same decoder returns `true` and produces a further epoch — the sticky
error does not make subsequent calls report exhaustion. -/
theorem C3_error_does_not_stop_decoding :
    (nextEpochM c3st).succ = false ∧
    (stepDec c3st).err = some .invalidSatSys ∧
    (nextEpochM (stepDec c3st)).succ = true :=
  ⟨by decide, by decide, by decide⟩

/-- C3 (amended): `setErr` records the first error and never overwrites a
stored non-EOF error (an `io.EOF` placeholder is overwritable); however
`NextEpoch` never consults the stored error, so a subsequent call can
still produce epochs instead of reporting exhaustion. -/
theorem C3_first_error_wins :
    (∀ e0 e1 : DecErr, e0 ≠ .eof → setErrF (some e0) e1 = some e0) ∧
    (∀ e : DecErr, setErrF none e = some e) := by
  constructor
  · intro e0 e1 h
    simp [setErrF, h]
  · intro e
    simp [setErrF]

/-- C3 (witness): first-error-wins at concrete errors. -/
theorem C3_first_error_wins_witness :
    setErrF (some .obsParse) .lliParse = some .obsParse ∧
    setErrF none .lliParse = some .lliParse :=
  ⟨C3_first_error_wins.1 .obsParse .lliParse (by decide), C3_first_error_wins.2 .lliParse⟩

/-- C9 (code_bug evaluation): an epoch-marker line shorter than 35
characters (here the two-character line `"> "`) makes `NextEpoch` panic on
the slice `line[2:29]`, and an input that ends before the declared number
of satellite lines has been read makes it panic on `line[:1]` of the empty
`sc.Text()` — the decoder aborts instead of recording an error. -/
theorem C9_short_input_panics :
    nextEpochM ⟨emptyHeader, none, ["> ".toList], none⟩ = .panic ∧
    nextEpochM ⟨emptyHeader, none, [marker1], none⟩ = .panic :=
  ⟨by decide, by decide⟩

/-- Running the header loop on a concatenation: if the first part leaves
the loop running, continue on the second from the state reached; if it
stopped, the unconsumed second part joins the leftover lines. -/
theorem hdrRun_append :
    ∀ (xs ys : List Line) (s : HdrState),
      hdrRun s (xs ++ ys) =
        match hdrRun s xs with
        | .running s2 => hdrRun s2 ys
        | .stopped h e r => .stopped h e (r ++ ys) := by
  intro xs
  induction xs with
  | nil => intro ys s; simp [hdrRun]
  | cons l xs ih =>
    intro ys s
    simp only [List.cons_append, hdrRun]
    by_cases h1 : 800 < s.lineNum + 1
    · simp [if_pos h1]
    · rw [if_neg h1, if_neg h1]
      by_cases h2 : l.length < 60
      · rw [if_pos h2, if_pos h2]
        exact ih ys _
      · rw [if_neg h2, if_neg h2]
        cases processHeaderLine s.hdr s.rem l with
        | done h => simp
        | fail h e => simp
        | next h rm => exact ih ys _

/-- While the header loop keeps running it counts exactly one line per
input line. -/
theorem hdrRun_running_lineNum :
    ∀ (ls : List Line) (s s2 : HdrState),
      hdrRun s ls = .running s2 → s2.lineNum = s.lineNum + ls.length := by
  intro ls
  induction ls with
  | nil =>
    intro s s2 h
    simp only [hdrRun, HdrOut.running.injEq] at h
    simp [← h]
  | cons l ls ih =>
    intro s s2 h
    simp only [hdrRun] at h
    by_cases h1 : 800 < s.lineNum + 1
    · rw [if_pos h1] at h; cases h
    · rw [if_neg h1] at h
      by_cases h2 : l.length < 60
      · rw [if_pos h2] at h
        have := ih _ _ h
        simp at this
        simp [this]
        omega
      · rw [if_neg h2] at h
        cases hp : processHeaderLine s.hdr s.rem l with
        | done hh => rw [hp] at h; simp at h
        | fail hh e => rw [hp] at h; simp at h
        | next hh rm =>
          rw [hp] at h
          simp only at h
          have := ih _ _ h
          simp at this
          simp [this]
          omega

/-- C4 (counterexample): a one-line stream whose single (empty) line is
not an `END OF HEADER` terminator: the header is never terminated within
800 lines, yet header reading does not fail with the header-too-long
error — it returns no error at all (the loop simply runs out of input). -/
theorem C4_short_unterminated_stream_counterexample :
    (readHeaderM [[]]).err ≠ some .headerTooLong ∧ (readHeaderM [[]]).err = none := by
  constructor <;> decide

/-- C4 (amended): for every input stream with more than 800 lines, none of
whose first 800 lines terminates the header or triggers another fatal
header error (i.e. the scan loop is still running after them),
header reading stops at the 801st line with the header-too-long error,
which `NewObsDecoder` hands to the caller; a stream that ends unterminated
within 800 lines instead yields no error. -/
theorem C4_header_too_long (lines : List Line) (s : HdrState)
    (hrun : hdrRun ⟨emptyHeader, [], 0⟩ (lines.take 800) = .running s)
    (hlen : 800 < lines.length) :
    (readHeaderM lines).err = some .headerTooLong := by
  have hsplit := hdrRun_append (lines.take 800) (lines.drop 800) ⟨emptyHeader, [], 0⟩
  rw [List.take_append_drop, hrun] at hsplit
  have hnum := hdrRun_running_lineNum (lines.take 800) _ _ hrun
  simp only [HdrState.lineNum, List.length_take] at hnum
  have hnum800 : s.lineNum = 800 := by
    rw [hnum]
    omega
  cases hd : lines.drop 800 with
  | nil =>
    have : lines.length ≤ 800 := by
      have := congrArg List.length hd
      simp at this
      omega
    omega
  | cons l rest =>
    rw [hd] at hsplit
    simp only [hdrRun, hnum800] at hsplit
    rw [if_pos (by omega : (800 : ℕ) < 800 + 1)] at hsplit
    simp [readHeaderM, hsplit]

set_option maxRecDepth 40000 in
/-- C4 (witness): 801 empty lines — the first 800 are counted but skipped
(shorter than 60 characters), the 801st trips the bound. -/
theorem C4_header_too_long_witness :
    (readHeaderM (List.replicate 801 ([] : Line))).err = some .headerTooLong :=
  C4_header_too_long (List.replicate 801 []) ⟨emptyHeader, [], 800⟩ (by decide) (by decide)

/-- C10 (code_bug evaluation): on a header-only file (a single
`END OF HEADER` line, so the body contains zero decodable epochs) the
decoder loop of `Stat` never runs, `dec.Err()` is `nil`, and the final
`stat.TimeOfLastObs = epoPrev.Time` dereferences the `nil` `epoPrev` — a
panic instead of `NumEpochs = 0` or an error. -/
theorem C10_stat_header_only_panics : statModel [endHdrLine] = .panic := by
  rw [show statModel [endHdrLine] =
      statLoop ⟨(readHeaderM [endHdrLine]).hdr, none, (readHeaderM [endHdrLine]).rest, none⟩
        0 0 none from rfl, statLoop.eq_1]
  decide

/-- C8: the `ANTENNA: DELTA H/E/N` line is parsed from three
whitespace-delimited tokens; the first parsed token is stored into the
`Up` field, the second into `E`, the third into `N` (the column-to-field
mapping of the source, not the label order), and any other token count is
a fatal error for the line. -/
theorem C8_antenna_delta_mapping :
    (∀ (hdr : ObsHeader) (val a b c : List Char) (qa qb qc : ℚ),
        goFields val = [a, b, c] →
        parseGoFloat a = some qa → parseGoFloat b = some qb → parseGoFloat c = some qc →
        applyAntennaDelta hdr val = .ok { hdr with AntennaDelta := ⟨qc, qb, qa⟩ }) ∧
    (∀ (hdr : ObsHeader) (val : List Char), (goFields val).length ≠ 3 →
        applyAntennaDelta hdr val = .error .antennaDelta) := by
  constructor
  · intro hdr val a b c qa qb qc hf ha hb hc
    simp [applyAntennaDelta, hf, ha, hb, hc]
  · intro hdr val h
    simp only [applyAntennaDelta]
    split
    · rename_i a b c heq
      exact absurd (by simp [heq]) h
    · rfl

/-- C8 (witness): `"  0.1234  2.5  3.75"` stores 0.1234 into `Up`, 2.5
into `E` and 3.75 into `N`; a two-token line is a fatal error. -/
theorem C8_antenna_delta_mapping_witness :
    applyAntennaDelta emptyHeader "  0.1234  2.5  3.75".toList =
      .ok { emptyHeader with AntennaDelta := ⟨15 / 4, 5 / 2, 617 / 5000⟩ } ∧
    applyAntennaDelta emptyHeader "  0.1234  2.5".toList = .error .antennaDelta :=
  ⟨C8_antenna_delta_mapping.1 emptyHeader _ "0.1234".toList "2.5".toList "3.75".toList
      (617 / 5000) (5 / 2) (15 / 4) (by decide) (by decide) (by decide) (by decide),
    C8_antenna_delta_mapping.2 emptyHeader _ (by decide)⟩

/-- Reading back the key just written. -/
theorem sysGet_sysSet (m : SysMap) (s : GnssSys) (v : List (List Char)) :
    sysGet (sysSet m s v) s = v := by
  induction m with
  | nil => simp [sysSet, sysGet]
  | cons p t ih =>
    by_cases hp : p.1 = s
    · simp [sysSet, sysGet, hp]
    · simp only [sysSet, List.any_cons, hp, decide_eq_true_eq, false_or, Bool.false_or]
      by_cases ht : t.any (fun q => decide (q.1 = s))
      · simp only [ht, if_true, List.map_cons, if_neg hp]
        have := ih
        simp only [sysSet, ht, if_true] at this
        simpa [sysGet, List.find?_cons, hp] using this
      · simp only [ht, if_false, List.cons_append]
        have := ih
        simp only [sysSet, ht, if_false] at this
        simpa [sysGet, List.find?_cons, hp] using this

/-- Two successive writes to the same key collapse to the last one. -/
theorem sysSet_sysSet (m : SysMap) (s : GnssSys) (v w : List (List Char)) :
    sysSet (sysSet m s v) s w = sysSet m s w := by
  by_cases hm : m.any (fun p => decide (p.1 = s))
  · have hset : sysSet m s v = m.map (fun p => if p.1 = s then (s, v) else p) := by
      simp [sysSet, hm]
    have hany : (m.map (fun p => if p.1 = s then (s, v) else p)).any
        (fun p => decide (p.1 = s)) = true := by
      rw [List.any_map]
      obtain ⟨p, hmem, hps⟩ := List.any_eq_true.mp hm
      refine List.any_eq_true.mpr ⟨p, hmem, ?_⟩
      simp only [Function.comp]
      simp only [decide_eq_true_eq] at hps
      simp [hps]
    rw [hset, sysSet, if_pos hany, sysSet, if_pos hm, List.map_map]
    refine List.map_congr_left ?_
    intro p hp
    by_cases hps : p.1 = s <;> simp [Function.comp, hps]
  · have hset : sysSet m s v = m ++ [(s, v)] := by simp [sysSet, hm]
    have hany : (m ++ [(s, v)]).any (fun p => decide (p.1 = s)) = true := by
      simp
    rw [hset, sysSet, if_pos hany, sysSet, if_neg hm, List.map_append]
    have hmap : m.map (fun p => if p.1 = s then (s, w) else p) = m := by
      conv_rhs => rw [← List.map_id m]
      refine List.map_congr_left ?_
      intro p hp
      have : ¬p.1 = s := by
        intro hps
        exact absurd (List.any_eq_true.mpr ⟨p, hp, by simp [hps]⟩) hm
      simp [this]
    simp [hmap]

/-- Folding continuation lines (blank system column, blank count field) of
a `SYS / # / OBS TYPES` block appends their tokens to the remembered
system's list. -/
theorem runSysLines_cont (c : Char) (sys : GnssSys) (hcs : sysPerAbbr [c] = some sys) :
    ∀ (ls : List Line) (m : SysMap) (acc : List (List Char)),
      (∀ l ∈ ls, l.take 1 = [' '] ∧ goTrim (seg l 3 6) = []) →
      runSysLines (sysSet m sys acc, [c]) ls =
        .ok (sysSet m sys (acc ++ (ls.map (fun l => goFields (l.drop 7))).flatten), [c]) := by
  intro ls
  induction ls with
  | nil => intro m acc h; simp [runSysLines]
  | cons l ls ih =>
    intro m acc h
    obtain ⟨h1, h2⟩ := h l (List.mem_cons_self l ls)
    have hrest : ∀ l2 ∈ ls, l2.take 1 = [' '] ∧ goTrim (seg l2 3 6) = [] :=
      fun l2 hl2 => h l2 (List.mem_cons_of_mem l hl2)
    have happ : applySysObsTypes (sysSet m sys acc) [c] l =
        .ok (sysSet (sysSet m sys acc) sys
          (sysGet (sysSet m sys acc) sys ++ goFields (l.drop 7)), [c]) := by
      simp [applySysObsTypes, h1, h2, hcs]
    rw [sysGet_sysSet, sysSet_sysSet] at happ
    simp only [runSysLines, happ]
    rw [ih (m := m) (acc ++ goFields (l.drop 7)) hrest]
    simp [List.append_assoc]

/-- C6: a `SYS / # / OBS TYPES` block made of a leading line (non-blank
system code, non-blank count field) and any number of continuation lines
(blank system column, blank count field) parses to the same `ObsTypes`
state as a single leading line that carries the concatenation of all the
blocks' tokens. -/
theorem C6_sys_obs_types_block (m : SysMap) (rem : List Char) (c : Char) (sys : GnssSys)
    (l0 : Line) (ls : List Line) (single : Line)
    (hc : c ≠ ' ') (hcs : sysPerAbbr [c] = some sys)
    (h01 : l0.take 1 = [c]) (h02 : goTrim (seg l0 3 6) ≠ [])
    (hls : ∀ l ∈ ls, l.take 1 = [' '] ∧ goTrim (seg l 3 6) = [])
    (hs1 : single.take 1 = [c]) (hs2 : goTrim (seg single 3 6) ≠ [])
    (htok : goFields (single.drop 7) =
      goFields (l0.drop 7) ++ (ls.map (fun l => goFields (l.drop 7))).flatten) :
    runSysLines (m, rem) (l0 :: ls) = runSysLines (m, rem) [single] := by
  have hl0 : applySysObsTypes m rem l0 = .ok (sysSet m sys (goFields (l0.drop 7)), [c]) := by
    simp [applySysObsTypes, h01, hcs, h02, hc]
  have hsingle : applySysObsTypes m rem single =
      .ok (sysSet m sys (goFields (single.drop 7)), [c]) := by
    simp [applySysObsTypes, hs1, hcs, hs2, hc]
  simp only [runSysLines, hl0, hsingle]
  rw [runSysLines_cont c sys hcs ls m (goFields (l0.drop 7)) hls, htok]

/-- C6 (witness): `G` block `["G    6 C1C L1C", "       L2C"]` equals the
single line `"G    9 C1C L1C L2C"`. -/
theorem C6_sys_obs_types_block_witness :
    runSysLines ([], []) ["G    6 C1C L1C".toList, "       L2C".toList] =
      runSysLines ([], []) ["G    9 C1C L1C L2C".toList] :=
  C6_sys_obs_types_block [] [] 'G' .GPS "G    6 C1C L1C".toList ["       L2C".toList]
    "G    9 C1C L1C L2C".toList (by decide) (by decide) (by decide) (by decide)
    (by decide) (by decide) (by decide) (by decide)

/-- The decimal part of a nonnegative number `n + f` with `0 ≤ f < 1` is
`f`: truncation toward zero removes exactly the integer part. -/
theorem getDecimal_nat_add (n : ℕ) (f : ℚ) (h0 : 0 ≤ f) (h1 : f < 1) :
    getDecimal ((n : ℚ) + f) = f := by
  have hnn : ¬((n : ℚ) + f < 0) := by
    push_neg
    positivity
  have hfl : ⌊(n : ℚ) + f⌋ = (n : ℤ) := by
    rw [show ((n : ℚ)) = (((n : ℤ)) : ℚ) by push_cast; ring, Int.floor_int_add,
      Int.floor_eq_zero_iff.mpr ⟨h0, h1⟩, add_zero]
  simp only [getDecimal, goTrunc, if_neg hnn, hfl]
  push_cast
  ring

/-- C7: `diffObs` compares observation types beginning with `L` only on
the decimal parts of their values and all other types on the raw values,
with the fixed tolerance `deltaPhase = 0.005`; differing loss-of-lock
indicators are always reported.  Concretely: values with different integer
parts whose fractional parts differ by at most 0.005 are not reported,
while a fractional difference of 0.01 is. -/
theorem C7_phase_fraction_comparison :
    (∀ (k : List Char) (o1 o2 : Obs), ("L".toList).isPrefixOf k = true →
        (reportCond k o1 o2 = true ↔
          o1.LLI ≠ o2.LLI ∨ deltaPhase < |getDecimal o1.Val - getDecimal o2.Val|)) ∧
    (∀ (k : List Char) (o1 o2 : Obs), ("L".toList).isPrefixOf k = false →
        (reportCond k o1 o2 = true ↔ o1.LLI ≠ o2.LLI ∨ deltaPhase < |o1.Val - o2.Val|)) ∧
    (∀ (n1 n2 : ℕ) (f1 f2 : ℚ) (lli s1 s2 : ℤ), 0 ≤ f1 → f1 < 1 → 0 ≤ f2 → f2 < 1 →
        |f1 - f2| ≤ deltaPhase →
        reportCond "L1C".toList ⟨(n1 : ℚ) + f1, lli, s1⟩ ⟨(n2 : ℚ) + f2, lli, s2⟩ = false) ∧
    (∀ (n1 n2 : ℕ) (f1 f2 : ℚ) (lli s1 s2 : ℤ), 0 ≤ f1 → f1 < 1 → 0 ≤ f2 → f2 < 1 →
        |f1 - f2| = 1 / 100 →
        reportCond "L1C".toList ⟨(n1 : ℚ) + f1, lli, s1⟩ ⟨(n2 : ℚ) + f2, lli, s2⟩ = true) ∧
    (∀ (k : List Char) (o1 o2 : Obs), o1.LLI ≠ o2.LLI → reportCond k o1 o2 = true) ∧
    (∀ (prn : PRN) (k : List Char) (o1 o2 : Obs),
        diffObs ⟨prn, [(k, o1)]⟩ ⟨prn, [(k, o2)]⟩ =
          if reportCond k o1 o2 then [.valueDiff k] else []) := by
  refine ⟨?_, ?_, ?_, ?_, ?_, ?_⟩
  · intro k o1 o2 h
    simp at h
    simp [reportCond, h]
  · intro k o1 o2 h
    simp at h
    simp [reportCond, h]
  · intro n1 n2 f1 f2 lli s1 s2 h01 h11 h02 h12 hle
    have e1 := getDecimal_nat_add n1 f1 h01 h11
    have e2 := getDecimal_nat_add n2 f2 h02 h12
    simp [reportCond, e1, e2]
    exact hle
  · intro n1 n2 f1 f2 lli s1 s2 h01 h11 h02 h12 heq
    have e1 := getDecimal_nat_add n1 f1 h01 h11
    have e2 := getDecimal_nat_add n2 f2 h02 h12
    simp [reportCond, e1, e2, heq, deltaPhase]
    norm_num
  · intro k o1 o2 h
    simp [reportCond, h]
  · intro prn k o1 o2
    by_cases hrep : reportCond k o1 o2 = true <;>
      simp [diffObs, obsGet, checkSNR, hrep]

/-- C7 (witness): the comparison policy at concrete observations — a
0.005-tolerated fractional difference across different integer parts is
not reported, a 0.01 fractional difference is, and differing LLI flags
are. -/
theorem C7_phase_fraction_comparison_witness :
    (reportCond "L1C".toList ⟨1 / 2, 5, 3⟩ ⟨3 / 2, 5, 4⟩ = true ↔
      (5 : ℤ) ≠ 5 ∨ deltaPhase < |getDecimal (1 / 2 : ℚ) - getDecimal (3 / 2 : ℚ)|) ∧
    (reportCond "C1C".toList ⟨1 / 2, 5, 3⟩ ⟨3 / 2, 5, 4⟩ = true ↔
      (5 : ℤ) ≠ 5 ∨ deltaPhase < |(1 / 2 : ℚ) - 3 / 2|) ∧
    reportCond "L1C".toList ⟨(123456 : ℚ) + 1 / 4, 7, 3⟩ ⟨(99 : ℚ) + 1 / 4, 7, 5⟩ = false ∧
    reportCond "L1C".toList ⟨(123456 : ℚ) + 1 / 4, 7, 3⟩ ⟨(99 : ℚ) + 13 / 50, 7, 5⟩ = true ∧
    reportCond "C1C".toList ⟨1, 0, 0⟩ ⟨1, 2, 0⟩ = true ∧
    diffObs ⟨⟨.GPS, 1⟩, [("C1C".toList, ⟨1, 0, 0⟩)]⟩ ⟨⟨.GPS, 1⟩, [("C1C".toList, ⟨1, 2, 0⟩)]⟩ =
      (if reportCond "C1C".toList ⟨1, 0, 0⟩ ⟨1, 2, 0⟩ then [.valueDiff "C1C".toList] else []) := by
  obtain ⟨p1, p2, p3, p4, p5, p6⟩ := C7_phase_fraction_comparison
  exact ⟨p1 _ _ _ (by decide), p2 _ _ _ (by decide),
    p3 123456 99 (1 / 4) (1 / 4) 7 3 5 (by norm_num) (by norm_num) (by norm_num) (by norm_num)
      (by norm_num [deltaPhase]),
    p4 123456 99 (1 / 4) (13 / 50) 7 3 5 (by norm_num) (by norm_num) (by norm_num) (by norm_num)
      (by norm_num),
    p5 _ _ _ (by decide), p6 _ _ _ _⟩

/-- Starting a `sync` call with `epoF2` already holding `y` behaves like
starting fresh with `y` put back in front of the second stream. -/
theorem syncGo_outer_some (y : Epoch) (xs ys : List Epoch) :
    syncGo (.outer (some y)) xs ys = syncGo (.outer none) xs (y :: ys) := by
  cases xs with
  | nil => simp [syncGo]
  | cons x xs =>
    have hsw : ∀ p q : Prop, p = q → (¬p ↔ ¬q) := fun p q h => by rw [h]
    by_cases he : x.Time = y.Time
    · simp [syncGo, he]
    · have hne2 : ¬y.Time = x.Time := fun h => he h.symm
      by_cases hgt : y.Time > x.Time
      · simp [syncGo, he, hne2, hgt]
      · simp [syncGo, he, hne2, hgt]

/-- When the second stream is exhausted and the held `epoF2` matches no
upcoming epoch of the first stream, `sync` drains the first stream and
reports no pair. -/
theorem syncGo_drain :
    ∀ (xs : List Epoch) (e2 : Option Epoch),
      List.Pairwise (fun a b => a.Time < b.Time) xs →
      (∀ y, e2 = some y → ∀ x ∈ xs, x.Time ≠ y.Time) →
      syncGo (.outer e2) xs [] = none := by
  intro xs
  induction xs with
  | nil => intro e2 _ _; simp [syncGo]
  | cons x xs ih =>
    intro e2 hp hne
    cases e2 with
    | none =>
      simp only [syncGo]
      exact ih none hp.of_cons (by simp)
    | some y =>
      have hxy : x.Time ≠ y.Time := hne y rfl x (List.mem_cons_self x xs)
      have hrest : ∀ y2, some y = some y2 → ∀ x2 ∈ xs, x2.Time ≠ y2.Time := by
        intro y2 hy2 x2 hx2
        cases hy2
        exact hne y rfl x2 (List.mem_cons_of_mem x hx2)
      by_cases hgt : y.Time > x.Time
      · simp only [syncGo, if_neg hxy, if_pos hgt]
        exact ih (some y) hp.of_cons hrest
      · simp only [syncGo, if_neg hxy, if_neg hgt]
        exact ih (some y) hp.of_cons hrest

/-- The first line not dropped by `dropWhile` fails the predicate. -/
theorem dropWhile_head_not {α : Type} (p : α → Bool) :
    ∀ (l : List α) (y : α) (t : List α), l.dropWhile p = y :: t → p y = false := by
  intro l
  induction l with
  | nil => intro y t h; simp at h
  | cons a l ih =>
    intro y t h
    by_cases hpa : p a = true
    · rw [List.dropWhile_cons_of_pos hpa] at h
      exact ih y t h
    · rw [List.dropWhile_cons_of_neg (by simpa using hpa)] at h
      cases h
      simpa using hpa

/-- Characterization of the inner `for dec2.NextEpoch()` loop: it skips
the second stream's epochs that are chronologically behind `epoF1`, then
either the streams ran out (no pair), the heads match (emit), or the
second stream has overtaken (pull the next `epoF1`). -/
theorem syncGo_inner_char :
    ∀ (ys : List Epoch) (x : Epoch) (xs : List Epoch) (e2 : Option Epoch),
      List.Pairwise (fun a b => a.Time < b.Time) (x :: xs) →
      (∀ y0, e2 = some y0 → y0.Time < x.Time) →
      syncGo (.inner x e2) xs ys =
        match ys.dropWhile (fun y => decide (y.Time < x.Time)) with
        | [] => none
        | y :: ys2 =>
          if y.Time = x.Time then some ((x, y), xs, ys2)
          else syncGo (.outer (some y)) xs ys2 := by
  intro ys
  induction ys with
  | nil =>
    intro x xs e2 hp he2
    simp only [List.dropWhile_nil]
    rw [show syncGo (.inner x e2) xs [] = syncGo (.outer e2) xs [] from by simp [syncGo]]
    refine syncGo_drain xs e2 hp.of_cons ?_
    intro y0 hy0 x2 hx2
    have hlt := he2 y0 hy0
    have hx2lt : x.Time < x2.Time := (List.pairwise_cons.mp hp).1 x2 hx2
    exact ne_of_gt (lt_trans hlt hx2lt)
  | cons y ys ih =>
    intro x xs e2 hp he2
    by_cases hlt : y.Time < x.Time
    · rw [List.dropWhile_cons_of_pos (by simpa using hlt)]
      have hne : ¬y.Time = x.Time := ne_of_lt hlt
      have hngt : ¬y.Time > x.Time := not_lt.mpr (le_of_lt hlt)
      rw [show syncGo (.inner x e2) xs (y :: ys) = syncGo (.inner x (some y)) xs ys from by
        simp [syncGo, hne, hngt]]
      exact ih x xs (some y) hp (by intro y0 hy0; cases hy0; exact hlt)
    · rw [List.dropWhile_cons_of_neg (by simpa using hlt)]
      by_cases he : y.Time = x.Time
      · simp [syncGo, he]
      · have hgt : y.Time > x.Time :=
          lt_of_le_of_ne (not_lt.mp hlt) (fun h => he h.symm)
        simp [syncGo, he, hgt]

/-- The head of the outer loop: pull `epoF1`, then run the inner loop with
no current `epoF2`. -/
theorem syncGo_start_char (x : Epoch) (xs ys : List Epoch)
    (hp : List.Pairwise (fun a b => a.Time < b.Time) (x :: xs)) :
    syncGo (.outer none) (x :: xs) ys =
      match ys.dropWhile (fun y => decide (y.Time < x.Time)) with
      | [] => none
      | y :: ys2 =>
        if y.Time = x.Time then some ((x, y), xs, ys2)
        else syncGo (.outer (some y)) xs ys2 := by
  rw [show syncGo (.outer none) (x :: xs) ys = syncGo (.inner x none) xs ys from by
    simp [syncGo]]
  exact syncGo_inner_char ys x xs none hp (by simp)

/-- A search over a concatenation whose first part contains no epoch with
the sought timestamp reduces to a search over the second part. -/
theorem find?_time_append (zs ys : List Epoch) (x : Epoch)
    (h : ∀ z ∈ zs, z.Time ≠ x.Time) :
    (zs ++ ys).find? (fun y => decide (y.Time = x.Time)) =
      ys.find? (fun y => decide (y.Time = x.Time)) := by
  rw [List.find?_append, List.find?_eq_none.mpr (fun z hz => by simp [h z hz])]
  simp

/-- Epochs of the second stream that match no upcoming epoch of the first
stream do not contribute pairs. -/
theorem intersectPairs_drop_front (zs ys xs : List Epoch)
    (h : ∀ z ∈ zs, ∀ x2 ∈ xs, z.Time ≠ x2.Time) :
    intersectPairs xs (zs ++ ys) = intersectPairs xs ys := by
  induction xs with
  | nil => simp [intersectPairs]
  | cons x2 xs ih =>
    simp only [intersectPairs, List.filterMap_cons]
    rw [find?_time_append zs ys x2 (fun z hz => h z hz x2 (List.mem_cons_self x2 xs))]
    have ihh := ih (fun z hz x3 hx3 => h z hz x3 (List.mem_cons_of_mem x2 hx3))
    simp only [intersectPairs] at ihh
    rw [ihh]

/-- If every epoch of the second stream is chronologically before `x`,
no epoch of the ascending stream `x :: xs` finds a partner. -/
theorem intersectPairs_of_all_lt (x : Epoch) (xs ys : List Epoch)
    (hall : ∀ y ∈ ys, y.Time < x.Time)
    (hp : List.Pairwise (fun a b => a.Time < b.Time) (x :: xs)) :
    intersectPairs (x :: xs) ys = [] := by
  have hx : ∀ x2 ∈ x :: xs, ys.find? (fun y => decide (y.Time = x2.Time)) = none := by
    intro x2 hx2
    refine List.find?_eq_none.mpr ?_
    intro y hy
    rcases List.mem_cons.mp hx2 with rfl | hmem
    · simp [ne_of_lt (hall y hy)]
    · have : y.Time < x2.Time :=
        lt_trans (hall y hy) ((List.pairwise_cons.mp hp).1 x2 hmem)
      simp [ne_of_lt this]
  simp only [intersectPairs]
  refine List.filterMap_eq_nil_iff.mpr ?_
  intro x2 hx2
  rw [hx x2 hx2]
  rfl

/-- `syncAll` on an exhausted `sync`. -/
theorem syncAll_none (xs ys : List Epoch)
    (h : syncGo (.outer none) xs ys = none) : syncAll xs ys = [] := by
  rw [syncAll.eq_def]
  split
  · rfl
  · rename_i p xs2 ys2 heq
    rw [h] at heq
    cases heq

/-- `syncAll` on an emitting `sync`. -/
theorem syncAll_some (xs ys xs2 ys2 : List Epoch) (p : Epoch × Epoch)
    (h : syncGo (.outer none) xs ys = some (p, xs2, ys2)) :
    syncAll xs ys = p :: syncAll xs2 ys2 := by
  rw [syncAll.eq_def]
  split
  · rename_i heq
    rw [h] at heq
    cases heq
  · rename_i p2 a b heq
    rw [h] at heq
    cases heq
    rfl

/-- C5: for two decoders yielding epochs in strictly ascending timestamp
order, iterating `sync` emits exactly the pairs whose shared timestamp
lies in both streams, in ascending (first-stream) order, each matching
timestamp exactly once, skipping unmatched epochs of either stream. -/
theorem C5_sync_emits_sorted_intersection :
    ∀ (xs ys : List Epoch),
      List.Pairwise (fun a b => a.Time < b.Time) xs →
      List.Pairwise (fun a b => a.Time < b.Time) ys →
      syncAll xs ys = intersectPairs xs ys := by
  suffices h : ∀ (N : ℕ) (xs ys : List Epoch), xs.length + ys.length ≤ N →
      List.Pairwise (fun a b => a.Time < b.Time) xs →
      List.Pairwise (fun a b => a.Time < b.Time) ys →
      syncAll xs ys = intersectPairs xs ys by
    intro xs ys hpx hpy
    exact h (xs.length + ys.length) xs ys le_rfl hpx hpy
  intro N
  induction N with
  | zero =>
    intro xs ys hlen hpx hpy
    cases xs with
    | nil =>
      rw [syncAll_none _ _ (by simp [syncGo])]
      simp [intersectPairs]
    | cons a t => simp at hlen
  | succ N ihN =>
    intro xs ys hlen hpx hpy
    cases xs with
    | nil =>
      rw [syncAll_none _ _ (by simp [syncGo])]
      simp [intersectPairs]
    | cons x xs =>
      have hchar := syncGo_start_char x xs ys hpx
      cases hd : ys.dropWhile (fun y => decide (y.Time < x.Time)) with
      | nil =>
        rw [hd] at hchar
        have hall : ∀ y ∈ ys, y.Time < x.Time := by
          intro y hy
          simpa using List.dropWhile_eq_nil_iff.mp hd y hy
        rw [syncAll_none _ _ hchar, intersectPairs_of_all_lt x xs ys hall hpx]
      | cons y ys2 =>
        rw [hd] at hchar
        simp only at hchar
        have hys : ys.takeWhile (fun y => decide (y.Time < x.Time)) ++ y :: ys2 = ys := by
          conv_rhs =>
            rw [← List.takeWhile_append_dropWhile (fun y => decide (y.Time < x.Time)) ys]
          rw [hd]
        have htw : ∀ z ∈ ys.takeWhile (fun y => decide (y.Time < x.Time)),
            z.Time < x.Time := by
          intro z hz
          simpa using List.mem_takeWhile_imp hz
        have hy_not : ¬(y.Time < x.Time) := by
          simpa using dropWhile_head_not _ ys y ys2 hd
        have hsub : (y :: ys2).Sublist ys := by
          rw [← hd]
          exact List.dropWhile_sublist _
        have hpy2 := List.Pairwise.sublist hsub hpy
        have hlen2 : ys2.length + 1 ≤ ys.length := by simpa using hsub.length_le
        have hxlt : ∀ x2 ∈ xs, x.Time < x2.Time := (List.pairwise_cons.mp hpx).1
        by_cases he : y.Time = x.Time
        · rw [if_pos he] at hchar
          rw [syncAll_some _ _ _ _ _ hchar]
          have hlen3 : xs.length + ys2.length ≤ N := by
            simp at hlen
            omega
          rw [ihN xs ys2 hlen3 hpx.of_cons hpy2.of_cons]
          have hfind : ys.find? (fun z => decide (z.Time = x.Time)) = some y := by
            rw [← hys, List.find?_append,
              List.find?_eq_none.mpr (fun z hz => by simp [ne_of_lt (htw z hz)])]
            simp [List.find?_cons_of_pos, he]
          have htail : intersectPairs xs ys = intersectPairs xs ys2 := by
            have hys2 : ys.takeWhile (fun y => decide (y.Time < x.Time)) ++ [y] ++ ys2 = ys := by
              simpa [List.append_assoc] using hys
            rw [← hys2]
            refine intersectPairs_drop_front _ _ _ ?_
            intro z hz x2 hx2
            rcases List.mem_append.mp hz with hz1 | hz2
            · exact ne_of_lt (lt_trans (htw z hz1) (hxlt x2 hx2))
            · rcases List.mem_singleton.mp hz2 with rfl
              rw [he]
              exact ne_of_lt (hxlt x2 hx2)
          simp only [intersectPairs, List.filterMap_cons, hfind, Option.map_some]
          simp only [intersectPairs] at htail
          rw [htail]
          simp
        · rw [if_neg he] at hchar
          have hgt : x.Time < y.Time := lt_of_le_of_ne (not_lt.mp hy_not) (fun h => he h.symm)
          rw [syncGo_outer_some] at hchar
          have hstep : syncAll (x :: xs) ys = syncAll xs (y :: ys2) := by
            cases hv : syncGo (.outer none) xs (y :: ys2) with
            | none => rw [syncAll_none _ _ (hchar.trans hv), syncAll_none _ _ hv]
            | some v =>
              obtain ⟨p, a, b⟩ := v
              rw [syncAll_some _ _ _ _ _ (hchar.trans hv), syncAll_some _ _ _ _ _ hv]
          have hlen4 : xs.length + (y :: ys2).length ≤ N := by
            simp at hlen ⊢
            omega
          rw [hstep, ihN xs (y :: ys2) hlen4 hpx.of_cons hpy2]
          have hfind : ys.find? (fun z => decide (z.Time = x.Time)) = none := by
            rw [← hys]
            refine List.find?_eq_none.mpr ?_
            intro z hz
            rcases List.mem_append.mp hz with hz1 | hz2
            · simp [ne_of_lt (htw z hz1)]
            · rcases List.mem_cons.mp hz2 with rfl | hz3
              · simp [he]
              · have hzx : x.Time < z.Time :=
                  lt_trans hgt ((List.pairwise_cons.mp hpy2).1 z hz3)
                simp [ne_of_gt hzx]
          symm
          simp only [intersectPairs, List.filterMap_cons, hfind, Option.map_none]
          have htail : intersectPairs xs ys = intersectPairs xs (y :: ys2) := by
            rw [← hys]
            exact intersectPairs_drop_front _ _ _ (fun z hz x2 hx2 =>
              ne_of_lt (lt_trans (htw z hz) (hxlt x2 hx2)))
          simp only [intersectPairs] at htail
          rw [htail]
          simp

/-- C5 (witness): streams with timestamps 1,3,4 and 2,3,4,9 synchronize
to exactly the pairs at 3 and 4. -/
theorem C5_sync_emits_sorted_intersection_witness :
    syncAll [⟨1, 0, 0, []⟩, ⟨3, 0, 0, []⟩, ⟨4, 0, 0, []⟩]
        [⟨2, 0, 0, []⟩, ⟨3, 0, 0, []⟩, ⟨4, 0, 0, []⟩, ⟨9, 0, 0, []⟩] =
      intersectPairs [⟨1, 0, 0, []⟩, ⟨3, 0, 0, []⟩, ⟨4, 0, 0, []⟩]
        [⟨2, 0, 0, []⟩, ⟨3, 0, 0, []⟩, ⟨4, 0, 0, []⟩, ⟨9, 0, 0, []⟩] :=
  C5_sync_emits_sorted_intersection _ _ (by decide) (by decide)
